import Mathlib

/-!
Shallow embedding of `src/main_process/src/process_control.cpp`: the
loop-unrolling sequence compiler (`compileSequence` with its helpers
`parseLoopStart` / `parseLoopEnd`) and the step-cursor state machine of
`ProcessController` (`initializeSequences`, `moveToNextStep`,
`isSequenceCompleted`, `updateDeviceStatuses`).

Modelling conventions:
- `std::vector` becomes `List`; the loop-frame stack's `back()` (top) is the
  head of the Lean list.
- The regexes `^\s*loop(\d+)_(\d+)\s*$` and `^\s*loop(\d+)_end\s*$` are
  embedded character-by-character on `String.data`; in the byte-oriented
  default (C) locale `\s` is exactly one of space, tab, `\n`, `\v`, `\f`,
  `\r`, and `\d` is `[0-9]`.
- `std::stoi` on a captured digit string yields its numeric value, or throws
  `std::out_of_range` when the value exceeds `INT_MAX = 2147483647`; that
  throw is modelled as `stoi` returning `none` (and the compiler failing
  with `CompileError.intOverflow`). Captured digit strings carry no sign,
  so the parsed values are naturals.
- C++ exceptions escaping `compileSequence` become `Except CompileError`;
  out-of-bounds `std::vector::operator[]` (undefined behavior) becomes an
  `Option` returning `none`.
- The external device-status manager is abstracted by the boolean result of
  `updateDeviceStatus(command)`, passed to each transition as an oracle bit.
-/

/-- Whitespace class `\s` of the embedded regexes (C locale `isspace`). -/
def isSpaceChar (c : Char) : Bool :=
  c = ' ' || c = '\t' || c = '\n' || c = '\x0b' || c = '\x0c' || c = '\r'

/-- Strip the `^\s*` and `\s*$` paddings the two regexes allow. -/
def stripLine (cs : List Char) : List Char :=
  ((cs.dropWhile isSpaceChar).reverse.dropWhile isSpaceChar).reverse

/-- Numeric value of a captured digit string (what `std::stoi` computes). -/
def natOfDigits (ds : List Char) : Nat :=
  ds.foldl (fun a c => a * 10 + (c.toNat - 48)) 0

/-- `std::stoi` on a capture of `\d+`: the value, or `none` for the
`std::out_of_range` throw when it exceeds `INT_MAX` (2147483647). -/
def stoi (ds : List Char) : Option Nat :=
  if natOfDigits ds ≤ 2147483647 then some (natOfDigits ds) else none

/-- The regex match of `parseLoopStart`, `^\s*loop(\d+)_(\d+)\s*$`:
`some (idDigits, repDigits)` when the line matches, before `stoi` runs. -/
def matchLoopStart (line : String) : Option (List Char × List Char) :=
  match stripLine line.data with
  | 'l' :: 'o' :: 'o' :: 'p' :: rest =>
    let d1 := rest.takeWhile Char.isDigit
    let r1 := rest.dropWhile Char.isDigit
    if d1.isEmpty then none
    else
      match r1 with
      | '_' :: r2 =>
          if r2.isEmpty then none
          else if r2.all Char.isDigit then some (d1, r2) else none
      | _ => none
  | _ => none

/-- The regex match of `parseLoopEnd`, `^\s*loop(\d+)_end\s*$`:
`some idDigits` when the line matches, before `stoi` runs. -/
def matchLoopEnd (line : String) : Option (List Char) :=
  match stripLine line.data with
  | 'l' :: 'o' :: 'o' :: 'p' :: rest =>
    let d1 := rest.takeWhile Char.isDigit
    let r1 := rest.dropWhile Char.isDigit
    if d1.isEmpty then none
    else if r1 = ['_', 'e', 'n', 'd'] then some d1 else none
  | _ => none

/-- Outcome of running `parseLoopStart` then `parseLoopEnd` on one raw line,
as `compileSequence`'s loop does: a loop-start marker with its parsed id and
repeat, a loop-end marker with its parsed id, a plain instruction, or the
`std::out_of_range` throw from `stoi` on an oversized numeral. -/
inductive LineKind where
  | loopStart (id rep : Nat)
  | loopEnd (id : Nat)
  | plain
  | overflow
  deriving Repr, DecidableEq

/-- Classify one raw line exactly as the C++ loop body does: try the
loop-start regex first (its `stoi` calls may throw), then the loop-end
regex, otherwise the line is a plain instruction. -/
def classify (line : String) : LineKind :=
  match matchLoopStart line with
  | some (d1, d2) =>
    match stoi d1 with
    | none => .overflow
    | some id =>
      match stoi d2 with
      | none => .overflow
      | some rep => .loopStart id rep
  | none =>
    match matchLoopEnd line with
    | some d1 =>
      match stoi d1 with
      | none => .overflow
      | some id => .loopEnd id
    | none => .plain

/-- `LoopFrame` of the C++ (field `repeat` is named `rep`, after the local
variable the value is parsed into). -/
structure LoopFrame where
  id : Nat
  rep : Nat
  block : List String
  deriving Repr, DecidableEq

/-- Failure modes of `compileSequence`: the four `std::runtime_error`s it
throws itself, plus the `std::out_of_range` that `std::stoi` throws out of
the parse helpers when a marker's numeral exceeds `INT_MAX`. -/
inductive CompileError where
  | invalidRepeat
  | unmatchedLoopEnd
  | loopIdMismatch
  | unclosedLoop
  | intOverflow
  deriving Repr, DecidableEq

/-- `if (stack.empty()) out.push_back/insert(...) else stack.back().block...`:
the output list after appending `xs` to the innermost open scope. -/
def scopeOut (xs out : List String) (stack : List LoopFrame) : List String :=
  match stack with
  | [] => out ++ xs
  | _ :: _ => out

/-- The frame stack after appending `xs` to the innermost open scope. -/
def scopeStack (xs : List String) (stack : List LoopFrame) : List LoopFrame :=
  match stack with
  | [] => []
  | top :: stk => { top with block := top.block ++ xs } :: stk

/-- The loop of `compileSequence` over the remaining raw lines, carrying the
output accumulator and the frame stack (head = innermost), followed by the
final unclosed-loop check. -/
def compileAux : List String → List String → List LoopFrame →
    Except CompileError (List String)
  | [], out, [] => .ok out
  | [], _, _ :: _ => .error .unclosedLoop
  | line :: rest, out, stack =>
    match classify line with
    | .overflow => .error .intOverflow
    | .loopStart id rep =>
      if rep = 0 then .error .invalidRepeat
      else compileAux rest out (⟨id, rep, []⟩ :: stack)
    | .loopEnd id =>
      match stack with
      | [] => .error .unmatchedLoopEnd
      | frame :: stk =>
        if frame.id ≠ id then .error .loopIdMismatch
        else
          compileAux rest
            (scopeOut (List.replicate frame.rep frame.block).flatten out stk)
            (scopeStack (List.replicate frame.rep frame.block).flatten stk)
    | .plain =>
      compileAux rest (scopeOut [line] out stack) (scopeStack [line] stack)

/-- `compileSequence(raw)`: flat instruction list, or the thrown error. -/
def compileSequence (raw : List String) : Except CompileError (List String) :=
  compileAux raw [] []

instance instDecidableEqExcept {ε α : Type} [DecidableEq ε] [DecidableEq α] :
    DecidableEq (Except ε α) := fun x y =>
  match x, y with
  | .ok a, .ok b =>
    if h : a = b then .isTrue (by rw [h])
    else .isFalse (by intro hc; cases hc; exact h rfl)
  | .error e, .error f =>
    if h : e = f then .isTrue (by rw [h])
    else .isFalse (by intro hc; cases hc; exact h rfl)
  | .ok _, .error _ => .isFalse (by intro hc; cases hc)
  | .error _, .ok _ => .isFalse (by intro hc; cases hc)

/-- The error scan abstraction of `compileAux`: it keeps only the stack of
open loop ids and reports which error, if any, `compileSequence` raises.
The five clauses are the claimed failure conditions: a numeral `stoi`
rejects, a loop-start with repeat `≤ 0` (the captures are unsigned, so
`= 0`), a loop-end on an empty stack, a loop-end whose id differs from the
innermost open id, and a non-empty stack at end of input. -/
def scanLines : List String → List Nat → Option CompileError
  | [], [] => none
  | [], _ :: _ => some .unclosedLoop
  | line :: rest, stack =>
    match classify line with
    | .overflow => some .intOverflow
    | .loopStart id rep =>
      if rep = 0 then some .invalidRepeat else scanLines rest (id :: stack)
    | .loopEnd id =>
      match stack with
      | [] => some .unmatchedLoopEnd
      | top :: stk => if top ≠ id then some .loopIdMismatch else scanLines rest stk
    | .plain => scanLines rest stack

/-- The error component of a compile result. -/
def errOf : Except CompileError (List String) → Option CompileError
  | .ok _ => none
  | .error e => some e

/-- `ProcessController`'s mutable members: `sequence_`, `current_step_`,
`step_index_` (the device manager is external). -/
structure ControllerState where
  sequence : List String
  currentStep : String
  stepIndex : Nat
  deriving Repr, DecidableEq

/-- `updateDeviceStatuses(command)`: the external manager's boolean reply
`b` translated to the returned message. -/
def updateDeviceStatuses (b : Bool) : String :=
  if b then "update device status success" else "update device status error"

/-- `moveToNextStep()`, with the device manager's reply `b` as an oracle.
Returns the new controller state paired with the message the internal
`updateDeviceStatuses` call produced (the C++ discards it), or `none` when
`sequence_[step_index_]` is read out of bounds (undefined behavior). -/
def moveToNextStep (b : Bool) (s : ControllerState) :
    Option (ControllerState × String) :=
  if s.stepIndex = 0 ∧ s.currentStep ≠ "init" then
    some (s, updateDeviceStatuses b)
  else
    match s.sequence.get? s.stepIndex with
    | none => none
    | some instr =>
      some ({ s with currentStep := instr, stepIndex := s.stepIndex + 1 },
        updateDeviceStatuses b)

/-- A sequence of `moveToNextStep()` calls, one oracle bit per call. -/
def runSteps : List Bool → ControllerState → Option ControllerState
  | [], s => some s
  | b :: rest, s =>
    match moveToNextStep b s with
    | none => none
    | some p => runSteps rest p.1

/-- `isSequenceCompleted()`: `step_index_ >= sequence_.size()`. -/
def isSequenceCompleted (s : ControllerState) : Bool :=
  s.sequence.length ≤ s.stepIndex

/-- The loader's filter inside `initializeSequences`: drop a line that is
empty or whose first character is `#`. -/
def keepLine (l : String) : Bool :=
  match l.data with
  | [] => false
  | c :: _ => c != '#'

/-- The raw lines read from the sequence file after the loader's filter. -/
def filterLines (lines : List String) : List String :=
  lines.filter keepLine

/-- The fallback literal of the load-failure branch. Note the C++ list has
only FOUR elements: the adjacent string literals
`"slider_init cobotta_init weighing_init plc_init"` and `"finished"` are
concatenated by the compiler into one entry (no comma between them). -/
def fallbackRaw : List String :=
  ["slider_init cobotta_init weighing_init plc_init",
   "slider_shelf_1 plc_buzz",
   "weighing_open slider_weight_pos cobotta_test",
   "slider_init cobotta_init weighing_init plc_init" ++ "finished"]

/-- `initializeSequences()`. `fileOpen` is whether `std::ifstream` opened
the sequence file; `fileLines` are the lines `getline` would deliver;
`sequence0` is the value of the member `sequence_` on entry (empty at
construction). On the load-failure branch the C++ assigns `fallbackRaw` to
the LOCAL variable `raw` and then `return`s before the compile step, so the
member keeps its prior value. -/
def initializeSequences (fileOpen : Bool) (fileLines : List String)
    (sequence0 : List String) : List String :=
  if fileOpen = false then
    sequence0
  else
    let raw := filterLines fileLines
    let seq : List String :=
      match compileSequence raw with
      | .ok s => s
      | .error _ => ["finished"]
    if seq.isEmpty ∨ seq.getLast? ≠ some "finished" then seq ++ ["finished"]
    else seq

/-- The controller state right after the constructor body's member setup and
`initializeSequences()`, before the constructor's final `moveToNextStep()`
call: `current_step_ = command`, `step_index_ = 0`. -/
def initialState (command : String) (fileOpen : Bool)
    (fileLines : List String) : ControllerState :=
  ⟨initializeSequences fileOpen fileLines [], command, 0⟩

/-- Claim C1: the claim states that on the load-failure path the fallback is
installed as the working sequence (non-empty, device inits, ending in a
separate `"finished"`). The code instead returns from `initializeSequences`
before the compile step ever runs, so the member sequence stays exactly as
it was — empty at construction; moreover the fallback literal itself merges
its intended last two entries into the single malformed instruction
`"slider_init cobotta_init weighing_init plc_initfinished"`. -/
theorem initializeSequences_load_failure_leaves_empty :
    (∀ fileLines : List String, initializeSequences false fileLines [] = []) ∧
    fallbackRaw.length = 4 ∧
    fallbackRaw.getLast? =
      some "slider_init cobotta_init weighing_init plc_initfinished" := by
  refine ⟨fun fileLines => rfl, by decide, by decide⟩

/-- Claim C2 (counterexample): from the post-construction state with initial
command `"go"` and compiled sequence `["a", "finished"]`, the second call to
`moveToNextStep` still takes the re-dispatch branch: the state after two
calls is unchanged (`stepIndex` still `0`, `currentStep` still `"go"`),
whereas the claim requires the second call to consume the sequence (set
`currentStep` to `"a"` and advance `stepIndex` to `1`). -/
theorem moveToNextStep_second_call_still_redispatches :
    ((moveToNextStep true (initialState "go" true ["a"])).bind
        fun p => moveToNextStep true p.1) =
      some (initialState "go" true ["a"], "update device status success") ∧
    (initialState "go" true ["a"]).sequence = ["a", "finished"] ∧
    (initialState "go" true ["a"]).stepIndex = 0 ∧
    (initialState "go" true ["a"]).currentStep = "go" := by decide

/-- Claim C2 (amended): whenever `stepIndex = 0` and `currentStep ≠ "init"`,
`moveToNextStep` re-dispatches the initial command and returns without
advancing; since the branch changes neither field, every later call from
that state takes the same branch again — the compiled sequence is never
consumed from such a state, not just skipped once. -/
theorem moveToNextStep_redispatch_persists :
    ∀ s : ControllerState,
      s.stepIndex = 0 → s.currentStep ≠ "init" →
      (∀ b, moveToNextStep b s = some (s, updateDeviceStatuses b)) ∧
      (∀ bs, runSteps bs s = some s) := by
  intro s h0 hi
  have hstep : ∀ b, moveToNextStep b s = some (s, updateDeviceStatuses b) := by
    intro b
    simp [moveToNextStep, h0, hi]
  refine ⟨hstep, ?_⟩
  intro bs
  induction bs with
  | nil => rfl
  | cons b rest ih => simp [runSteps, hstep b, ih]

/-- Claim C2 (witness for the amended theorem): three calls from the state
with command `"go"` leave it unchanged. -/
theorem moveToNextStep_redispatch_persists_witness :
    (initialState "go" true ["a"]).stepIndex = 0 ∧
    (initialState "go" true ["a"]).currentStep ≠ "init" ∧
    runSteps [true, false, true] (initialState "go" true ["a"]) =
      some (initialState "go" true ["a"]) :=
  ⟨by decide, by decide,
    (moveToNextStep_redispatch_persists (initialState "go" true ["a"])
      (by decide) (by decide)).2 [true, false, true]⟩

/-- Claim C4: off the re-dispatch branch, `moveToNextStep` reads
`sequence_[step_index_]` with no bounds guard; the read is defined exactly
when `stepIndex < length sequence`. -/
theorem moveToNextStep_defined_iff_inbounds :
    ∀ (s : ControllerState) (b : Bool),
      ¬(s.stepIndex = 0 ∧ s.currentStep ≠ "init") →
      ((moveToNextStep b s).isSome ↔ s.stepIndex < s.sequence.length) := by
  intro s b hc
  simp only [moveToNextStep, if_neg hc]
  cases hg : s.sequence.get? s.stepIndex with
  | none =>
    exact iff_of_false (by simp) (Nat.not_lt.2 (List.get?_eq_none.1 hg))
  | some instr =>
    obtain ⟨hlt, -⟩ := List.get?_eq_some.1 hg
    exact iff_of_true (by simp) hlt

/-- Claim C4 (witness): the empty sequence of the load-failure path with
constructor command `"init"`: the very first `moveToNextStep` call is an
out-of-bounds access. -/
theorem moveToNextStep_defined_iff_inbounds_witness :
    ¬((⟨[], "init", 0⟩ : ControllerState).stepIndex = 0 ∧
        (⟨[], "init", 0⟩ : ControllerState).currentStep ≠ "init") ∧
    ((moveToNextStep true ⟨[], "init", 0⟩).isSome ↔
      (⟨[], "init", 0⟩ : ControllerState).stepIndex <
        (⟨[], "init", 0⟩ : ControllerState).sequence.length) ∧
    moveToNextStep true ⟨[], "init", 0⟩ = none :=
  ⟨by decide, moveToNextStep_defined_iff_inbounds ⟨[], "init", 0⟩ true (by decide),
    by decide⟩

/-- Claim C9: on the normal advance branch the cursor moves and the current
step is updated identically for a succeeding and for a failing device
update — the oracle bit `b` only changes the message `updateDeviceStatuses`
returns (which `moveToNextStep` discards). -/
theorem moveToNextStep_advances_regardless :
    ∀ (s : ControllerState) (instr : String) (b : Bool),
      ¬(s.stepIndex = 0 ∧ s.currentStep ≠ "init") →
      s.sequence.get? s.stepIndex = some instr →
      moveToNextStep b s =
        some ({ s with currentStep := instr, stepIndex := s.stepIndex + 1 },
          updateDeviceStatuses b) ∧
      updateDeviceStatuses true = "update device status success" ∧
      updateDeviceStatuses false = "update device status error" := by
  intro s instr b hc hg
  refine ⟨?_, rfl, rfl⟩
  unfold moveToNextStep
  rw [if_neg hc, hg]

/-- Claim C9 (witness): a failing device update (`b = false`) still advances
the cursor from `0` to `1` and sets the current step to `"a"`. -/
theorem moveToNextStep_advances_regardless_witness :
    ¬((⟨["a", "finished"], "init", 0⟩ : ControllerState).stepIndex = 0 ∧
        (⟨["a", "finished"], "init", 0⟩ : ControllerState).currentStep ≠ "init") ∧
    (⟨["a", "finished"], "init", 0⟩ : ControllerState).sequence.get?
        (⟨["a", "finished"], "init", 0⟩ : ControllerState).stepIndex = some "a" ∧
    (moveToNextStep false ⟨["a", "finished"], "init", 0⟩ =
        some (⟨["a", "finished"], "a", 1⟩, updateDeviceStatuses false) ∧
      updateDeviceStatuses true = "update device status success" ∧
      updateDeviceStatuses false = "update device status error") :=
  ⟨by decide, by decide,
    moveToNextStep_advances_regardless ⟨["a", "finished"], "init", 0⟩ "a" false
      (by decide) (by decide)⟩


/-- Effect of one `moveToNextStep` call on the cursor: it never decreases,
the sequence is untouched, and the in-bounds invariant is preserved. -/
lemma moveToNextStep_state :
    ∀ (b : Bool) (s : ControllerState) (p : ControllerState × String),
      moveToNextStep b s = some p →
      s.stepIndex ≤ p.1.stepIndex ∧ p.1.sequence = s.sequence ∧
      (s.stepIndex ≤ s.sequence.length →
        p.1.stepIndex ≤ p.1.sequence.length) := by
  intro b s p h
  unfold moveToNextStep at h
  by_cases hc : s.stepIndex = 0 ∧ s.currentStep ≠ "init"
  · rw [if_pos hc] at h
    cases h
    exact ⟨Nat.le_refl _, rfl, fun hb => hb⟩
  · rw [if_neg hc] at h
    cases hg : s.sequence.get? s.stepIndex with
    | none => rw [hg] at h; cases h
    | some instr =>
      rw [hg] at h
      cases h
      obtain ⟨hlt, -⟩ := List.get?_eq_some.1 hg
      exact ⟨Nat.le_succ _, rfl, fun _ => hlt⟩

/-- Claim C3: over any run of `moveToNextStep()` calls from a state whose
cursor is within bounds (as after construction, where it is `0`), the
cursor never decreases, the compiled sequence is unchanged, and the cursor
never exceeds the sequence's length. -/
theorem stepIndex_monotone_and_bounded :
    ∀ (bs : List Bool) (s s' : ControllerState),
      s.stepIndex ≤ s.sequence.length →
      runSteps bs s = some s' →
      s.stepIndex ≤ s'.stepIndex ∧ s'.sequence = s.sequence ∧
      s'.stepIndex ≤ s'.sequence.length := by
  intro bs
  induction bs with
  | nil =>
    intro s s' hb h
    cases h
    exact ⟨Nat.le_refl _, rfl, hb⟩
  | cons b rest ih =>
    intro s s' hb h
    simp only [runSteps] at h
    cases hm : moveToNextStep b s with
    | none => rw [hm] at h; cases h
    | some p =>
      rw [hm] at h
      obtain ⟨h1, h2, h3⟩ := moveToNextStep_state b s p hm
      obtain ⟨g1, g2, g3⟩ := ih p.1 s' (h2 ▸ h3 hb) h
      exact ⟨Nat.le_trans h1 g1, g2.trans h2, g3⟩

/-- Claim C3 (witness): two calls from the freshly constructed state with
command `"init"` and sequence `["a", "finished"]` reach cursor `2 = length`. -/
theorem stepIndex_monotone_and_bounded_witness :
    (⟨["a", "finished"], "init", 0⟩ : ControllerState).stepIndex ≤
      (⟨["a", "finished"], "init", 0⟩ : ControllerState).sequence.length ∧
    runSteps [true, true] ⟨["a", "finished"], "init", 0⟩ =
      some ⟨["a", "finished"], "finished", 2⟩ ∧
    ((⟨["a", "finished"], "init", 0⟩ : ControllerState).stepIndex ≤
        (⟨["a", "finished"], "finished", 2⟩ : ControllerState).stepIndex ∧
      (⟨["a", "finished"], "finished", 2⟩ : ControllerState).sequence =
        (⟨["a", "finished"], "init", 0⟩ : ControllerState).sequence ∧
      (⟨["a", "finished"], "finished", 2⟩ : ControllerState).stepIndex ≤
        (⟨["a", "finished"], "finished", 2⟩ : ControllerState).sequence.length) :=
  ⟨by decide, by decide,
    stepIndex_monotone_and_bounded [true, true] ⟨["a", "finished"], "init", 0⟩
      ⟨["a", "finished"], "finished", 2⟩ (by decide) (by decide)⟩

/-- Claim C7: whenever the compile step is reached (`fileOpen = true`), the
installed sequence is non-empty and ends with `"finished"`; on compile
success the sentinel is appended exactly when the output does not already
end with it, and on a compile error the sequence is the single-element
`["finished"]`. -/
theorem initializeSequences_sentinel :
    ∀ (fileLines sequence0 : List String),
      initializeSequences true fileLines sequence0 ≠ [] ∧
      (initializeSequences true fileLines sequence0).getLast? =
        some "finished" ∧
      (∀ s, compileSequence (filterLines fileLines) = .ok s →
        initializeSequences true fileLines sequence0 =
          if s.getLast? = some "finished" then s else s ++ ["finished"]) ∧
      (∀ e, compileSequence (filterLines fileLines) = .error e →
        initializeSequences true fileLines sequence0 = ["finished"]) := by
  intro fileLines sequence0
  cases hres : compileSequence (filterLines fileLines) with
  | ok s =>
    have hval : initializeSequences true fileLines sequence0 =
        if s.isEmpty ∨ s.getLast? ≠ some "finished" then s ++ ["finished"]
        else s := by
      unfold initializeSequences
      rw [if_neg (show ¬(true = false) by decide)]
      simp only [hres]
    have hval2 : initializeSequences true fileLines sequence0 =
        if s.getLast? = some "finished" then s else s ++ ["finished"] := by
      rw [hval]
      cases s with
      | nil => simp
      | cons a t =>
        by_cases hl : (a :: t).getLast? = some "finished"
        · rw [if_pos hl, if_neg (by simp [hl])]
        · rw [if_neg hl, if_pos (by simp [hl])]
    refine ⟨?_, ?_, ?_, ?_⟩
    · rw [hval2]
      by_cases hl : s.getLast? = some "finished"
      · rw [if_pos hl]
        intro hnil
        rw [hnil] at hl
        cases hl
      · rw [if_neg hl]
        intro hnil
        exact List.append_ne_nil_of_right_ne_nil s (by simp) hnil
    · rw [hval2]
      by_cases hl : s.getLast? = some "finished"
      · rw [if_pos hl]
        exact hl
      · rw [if_neg hl]
        exact List.getLast?_concat s
    · intro s2 h2
      exact Except.noConfusion h2 (fun hss => hss ▸ hval2)
    · intro e2 h2
      exact Except.noConfusion h2
  | error e =>
    have hval : initializeSequences true fileLines sequence0 = ["finished"] := by
      unfold initializeSequences
      rw [if_neg (show ¬(true = false) by decide)]
      simp only [hres]
      decide
    refine ⟨by rw [hval]; decide, by rw [hval]; decide, ?_, fun _ _ => hval⟩
    intro s2 h2
    exact Except.noConfusion h2

/-- Claim C7 (witness): file lines `["a"]` compile to `["a"]`, which does not
end with the sentinel, so `"finished"` is appended. -/
theorem initializeSequences_sentinel_witness :
    compileSequence (filterLines ["a"]) = .ok ["a"] ∧
    initializeSequences true ["a"] [] = ["a", "finished"] := by
  refine ⟨by decide, ?_⟩
  have h := (initializeSequences_sentinel ["a"] []).2.2.1 ["a"] (by decide)
  rw [h]
  decide

/-- Claim C5: the spec's nesting example. The inner `loop2_2` around `y`
expands into the outer block first, and the outer `loop1_2` then repeats
`[x, y, y]` twice. -/
theorem compile_nested_loops_example :
    compileSequence ["loop1_2", "x", "loop2_2", "y", "loop2_end", "loop1_end"]
      = .ok ["x", "y", "y", "x", "y", "y"] := by decide

/-- Appending to the innermost scope does not change the open loop ids. -/
lemma scopeStack_ids (xs : List String) (stack : List LoopFrame) :
    (scopeStack xs stack).map LoopFrame.id = stack.map LoopFrame.id := by
  cases stack <;> simp [scopeStack]

/-- The error behavior of `compileAux` is fully determined by the id scan:
block contents and accumulated output never influence failure. -/
lemma compileAux_errOf :
    ∀ (raw out : List String) (stack : List LoopFrame),
      errOf (compileAux raw out stack) = scanLines raw (stack.map LoopFrame.id) := by
  intro raw
  induction raw with
  | nil =>
    intro out stack
    cases stack <;> simp [compileAux, scanLines, errOf]
  | cons line rest ih =>
    intro out stack
    simp only [compileAux, scanLines]
    cases hc : classify line with
    | overflow => simp [errOf]
    | loopStart id rep =>
      by_cases hr : rep = 0
      · simp [hr, errOf]
      · simp only [if_neg hr]
        have h := ih out (⟨id, rep, []⟩ :: stack)
        simpa using h
    | loopEnd id =>
      cases stack with
      | nil => simp [errOf]
      | cons frame stk =>
        simp only [List.map_cons]
        by_cases hid : frame.id = id
        · rw [if_neg (by simp [hid]), if_neg (by simp [hid])]
          rw [ih]
          rw [scopeStack_ids]
        · rw [if_pos (by simp [hid]), if_pos (by simp [hid])]
          simp [errOf]
    | plain =>
      rw [ih, scopeStack_ids]

/-- Claim C6 (counterexample): a balanced loop whose id numeral exceeds
`INT_MAX` makes `compileSequence` fail — via the `std::out_of_range` that
`std::stoi` throws — although the input exhibits none of the four
structural errors (repeat is `1 > 0`, the ids match, every loop is
closed). -/
theorem compile_overflow_counterexample :
    compileSequence ["loop2147483648_1", "a", "loop2147483648_end"] =
      .error .intOverflow ∧
    CompileError.intOverflow ≠ CompileError.invalidRepeat ∧
    CompileError.intOverflow ≠ CompileError.unmatchedLoopEnd ∧
    CompileError.intOverflow ≠ CompileError.loopIdMismatch ∧
    CompileError.intOverflow ≠ CompileError.unclosedLoop := by decide

/-- Claim C6 (amended): `compileSequence` fails exactly when the id scan
`scanLines` reports an error, i.e. on the four structural conditions — a
loop-start with repeat `≤ 0`, a loop-end on an empty stack, a loop-end
whose id differs from the innermost open frame's id, an open frame left at
end of input — or on a marker numeral that `std::stoi` rejects as out of
`int` range; the error kind is the one of the first condition hit, and a
failure returns no output. -/
theorem compile_fails_iff_scan :
    ∀ raw : List String, errOf (compileSequence raw) = scanLines raw [] := by
  intro raw
  have h := compileAux_errOf raw [] []
  simpa using h

/-- Processing an open frame's remaining plain body up to its loop-end:
the closed frame's block (`acc` plus the body) is replicated `n` times and
merged into the enclosing scope, and compilation continues after the end
marker. -/
lemma compileAux_block :
    ∀ (block acc : List String) (e : String) (id n : Nat)
      (rest out : List String) (stack : List LoopFrame),
      (∀ l ∈ block, classify l = .plain) →
      classify e = .loopEnd id →
      compileAux (block ++ e :: rest) out (⟨id, n, acc⟩ :: stack) =
        compileAux rest
          (scopeOut (List.replicate n (acc ++ block)).flatten out stack)
          (scopeStack (List.replicate n (acc ++ block)).flatten stack) := by
  intro block
  induction block with
  | nil =>
    intro acc e id n rest out stack hb he
    simp only [List.nil_append, compileAux]
    rw [he]
    simp
  | cons l bl ih =>
    intro acc e id n rest out stack hb he
    have hl : classify l = .plain := hb l (by simp)
    have h0 : compileAux ((l :: bl) ++ e :: rest) out (⟨id, n, acc⟩ :: stack) =
        compileAux (bl ++ e :: rest) out (⟨id, n, acc ++ [l]⟩ :: stack) := by
      simp only [List.cons_append, compileAux]
      rw [hl]
      simp [scopeOut, scopeStack]
    rw [h0]
    rw [ih (acc ++ [l]) e id n rest out stack
      (fun x hx => hb x (by simp [hx])) he]
    simp [List.append_assoc]

/-- Claim C8: in any enclosing scope (any output accumulator and any open
frame stack), a loop-start with id `id` and repeat `n ≥ 1`, a body of plain
instruction lines, and the matching loop-end contribute exactly the body
concatenated `n` times — `n·k` instructions in intra-block order — to that
scope, and compilation proceeds with the remaining input. -/
theorem loop_block_expansion :
    ∀ (s e : String) (id n : Nat) (block rest out : List String)
      (stack : List LoopFrame),
      classify s = .loopStart id n → n ≠ 0 →
      (∀ l ∈ block, classify l = .plain) →
      classify e = .loopEnd id →
      compileAux (s :: (block ++ e :: rest)) out stack =
        compileAux rest
          (scopeOut (List.replicate n block).flatten out stack)
          (scopeStack (List.replicate n block).flatten stack) := by
  intro s e id n block rest out stack hs hn hb he
  have h0 : compileAux (s :: (block ++ e :: rest)) out stack =
      compileAux (block ++ e :: rest) out (⟨id, n, []⟩ :: stack) := by
    simp only [compileAux]
    rw [hs]
    simp [hn]
  rw [h0]
  rw [compileAux_block block [] e id n rest out stack hb he]
  simp

/-- Claim C8 (witness): the spec's single-loop example `loop1_3 [a b]`
compiles to `[a, b, a, b, a, b]`. -/
theorem loop_block_expansion_witness :
    classify "loop1_3" = LineKind.loopStart 1 3 ∧
    classify "loop1_end" = LineKind.loopEnd 1 ∧
    compileSequence ["loop1_3", "a", "b", "loop1_end"] =
      .ok ["a", "b", "a", "b", "a", "b"] := by
  refine ⟨by decide, by decide, ?_⟩
  have h := loop_block_expansion "loop1_3" "loop1_end" 1 3 ["a", "b"] [] [] []
    (by decide) (by decide) (by decide) (by decide)
  unfold compileSequence
  rw [show (["loop1_3", "a", "b", "loop1_end"] : List String) =
    "loop1_3" :: (["a", "b"] ++ "loop1_end" :: []) from rfl]
  rw [h]
  decide

/-- A line is classified as a plain instruction exactly when neither regex
matches it. -/
lemma classify_eq_plain_iff (l : String) :
    classify l = .plain ↔ matchLoopStart l = none ∧ matchLoopEnd l = none := by
  unfold classify
  cases hs : matchLoopStart l with
  | some p =>
    obtain ⟨d1, d2⟩ := p
    cases h1 : stoi d1 with
    | none => simp [h1]
    | some id => cases h2 : stoi d2 <;> simp [h1, h2]
  | none =>
    cases he : matchLoopEnd l with
    | some d =>
      cases h1 : stoi d <;> simp [h1]
    | none => simp

/-- Appending plain content to the innermost scope preserves the invariant
that the output and every open frame's block hold only plain lines. -/
lemma scope_plain_invariant (xs out : List String) (stack : List LoopFrame)
    (hxs : ∀ l ∈ xs, classify l = .plain)
    (hout : ∀ l ∈ out, classify l = .plain)
    (hstk : ∀ f ∈ stack, ∀ l ∈ f.block, classify l = .plain) :
    (∀ l ∈ scopeOut xs out stack, classify l = .plain) ∧
    (∀ f ∈ scopeStack xs stack, ∀ l ∈ f.block, classify l = .plain) := by
  cases stack with
  | nil =>
    refine ⟨?_, by simp [scopeStack]⟩
    intro l hl
    rcases List.mem_append.1 hl with h | h
    · exact hout l h
    · exact hxs l h
  | cons top stk =>
    refine ⟨hout, ?_⟩
    intro f hf l hl
    rcases List.mem_cons.1 hf with rfl | hf2
    · rcases List.mem_append.1 hl with h | h
      · exact hstk top (by simp) l h
      · exact hxs l h
    · exact hstk f (by simp [hf2]) l hl

/-- When `compileAux` succeeds and its accumulators hold only plain lines,
the result holds only plain lines. -/
lemma compileAux_all_plain :
    ∀ (raw out : List String) (stack : List LoopFrame) (res : List String),
      compileAux raw out stack = .ok res →
      (∀ l ∈ out, classify l = .plain) →
      (∀ f ∈ stack, ∀ l ∈ f.block, classify l = .plain) →
      ∀ l ∈ res, classify l = .plain := by
  intro raw
  induction raw with
  | nil =>
    intro out stack res h hout hstk
    cases stack with
    | nil =>
      cases h
      exact hout
    | cons f s => exact Except.noConfusion h
  | cons line rest ih =>
    intro out stack res h hout hstk
    simp only [compileAux] at h
    cases hc : classify line with
    | overflow =>
      rw [hc] at h
      exact Except.noConfusion h
    | loopStart id rep =>
      rw [hc] at h
      by_cases hr : rep = 0
      · simp [hr] at h
      · simp only [if_neg hr] at h
        refine ih _ _ res h hout ?_
        intro f hf l hl
        rcases List.mem_cons.1 hf with rfl | hf2
        · simp at hl
        · exact hstk f (by simp [hf2]) l hl
    | loopEnd id =>
      rw [hc] at h
      cases stack with
      | nil => exact Except.noConfusion h
      | cons frame stk =>
        by_cases hid : frame.id = id
        · simp only [hid, ne_eq, not_true_eq_false, if_false] at h
          have hexp : ∀ l ∈ (List.replicate frame.rep frame.block).flatten,
              classify l = .plain := by
            intro l hl
            obtain ⟨bl, hbl, hlbl⟩ := List.mem_flatten.1 hl
            obtain ⟨-, rfl⟩ := List.mem_replicate.1 hbl
            exact hstk frame (by simp) l hlbl
          obtain ⟨ho, hs⟩ := scope_plain_invariant
            (List.replicate frame.rep frame.block).flatten out stk hexp hout
            (fun f hf => hstk f (by simp [hf]))
          exact ih _ _ res h ho hs
        · simp [hid] at h
    | plain =>
      rw [hc] at h
      simp only [] at h
      obtain ⟨ho, hs⟩ := scope_plain_invariant [line] out stack
        (by intro l hl; simp at hl; rw [hl]; exact hc) hout hstk
      exact ih _ _ res h ho hs

/-- Claim C10: when `compileSequence` succeeds, no element of its output
matches the loop-start regex or the loop-end regex — every loop marker has
been consumed. -/
theorem compiled_output_no_loop_markers :
    ∀ (raw res : List String), compileSequence raw = .ok res →
      ∀ l ∈ res, matchLoopStart l = none ∧ matchLoopEnd l = none := by
  intro raw res h l hl
  have hp := compileAux_all_plain raw [] [] res h (by simp) (by simp) l hl
  exact (classify_eq_plain_iff l).1 hp

/-- Claim C10 (witness): in the compiled output of
`["a", "loop1_2", "b", "loop1_end"]`, the element `"b"` (which came from an
expanded loop body) matches neither marker regex. -/
theorem compiled_output_no_loop_markers_witness :
    compileSequence ["a", "loop1_2", "b", "loop1_end"] = .ok ["a", "b", "b"] ∧
    (matchLoopStart "b" = none ∧ matchLoopEnd "b" = none) :=
  ⟨by decide,
    compiled_output_no_loop_markers ["a", "loop1_2", "b", "loop1_end"]
      ["a", "b", "b"] (by decide) "b" (by decide)⟩
